import Mathlib

/-!
Verification of the GPA calculator (`src/app.py`).

The pure core of the program is embedded shallowly:
* grade normalization (`score_to_points`, `LETTER_TO_POINTS`),
* period classification (`parse_period`),
* aggregation (`calculate_overall_gpa`, `period_gpa`),
* period display ordering (`order_map`),
* the record store operations of the sidebar form
  (`add_record_form`, `generate_random_records`).

Python floats are modelled as rationals (`ℚ`); every quantity the program
manipulates is produced by exact decimal input, so no rounding behaviour is
relevant to the claims.  Python's `float(str)` conversion is modelled by
`parseFloat` on plain decimal literals.  The `random` module is modelled by
an oracle of natural-number draws (`RandomOracle`): `random.choice` picks an
index modulo the list length and `random.sample` repeatedly picks and removes
an index, so every property proved holds for all outcomes of the
pseudo-random source.
-/

namespace GpaCalc

/-- The two score types of the app: `"Әріптік"` (letter) and
`"Сандық (0-100)"` (numeric).  `SCORE_TYPES = ["Әріптік", "Сандық (0-100)"]`
in the source; only these two values are ever constructed. -/
inductive ScoreType where
  | Letter
  | Numeric
deriving DecidableEq

/-- A raw grade value: the Python code stores either a string (letter grades)
or a number (numeric grades) in the `grade` field. -/
inductive GradeVal where
  | str (s : String)
  | num (q : ℚ)
deriving DecidableEq

/-- The error taxonomy of the spec (§7); Python-side these surface as the
`ValueError` of `float` and the `st.warning` path of the form. -/
inductive GpaError where
  | InvalidGradeError
  | ValidationError
deriving DecidableEq

/-- Python's `str.upper()`, character by character. -/
def pyUpper (s : String) : String := String.mk (s.data.map Char.toUpper)

/-- Python's `str.strip()`: drop whitespace from both ends. -/
def pyStrip (s : String) : String :=
  String.mk (((s.data.dropWhile Char.isWhitespace).reverse.dropWhile
    Char.isWhitespace).reverse)

/-- Python's `str.startswith(pre)`. -/
def pyStartsWith (s pre : String) : Bool := pre.data.isPrefixOf s.data

/-- `LETTER_TO_POINTS` dict from `src/app.py` (lines 19-25). -/
def LETTER_TO_POINTS : List (String × ℚ) :=
  [("A", 4), ("B", 3), ("C", 2), ("D", 1), ("F", 0)]

/-- `RANDOM_SUBJECTS` catalog from `src/app.py` (lines 40-51). -/
def RANDOM_SUBJECTS : List String :=
  ["Математика", "Физика", "Химия", "Биология", "Тарих",
   "Ағылшын тілі", "Информатика", "География", "Өнер", "Қазақ тілі"]

/-- `SCORE_TYPES` list from `src/app.py` (line 53). -/
def SCORE_TYPES : List ScoreType := [.Letter, .Numeric]

/-- `PERIODS` list from `src/app.py` (line 54). -/
def PERIODS : List String := ["Q1", "Q2", "Q3", "Q4", "S1", "S2"]

/-- `parse_period` from `src/app.py` (lines 57-63): strip and uppercase,
classify by leading letter, empty value becomes `"N/A"`. -/
def parse_period (period_raw : String) : String × String :=
  let value := pyUpper (pyStrip period_raw)
  if pyStartsWith value "Q" then ("Quarter", value)
  else if pyStartsWith value "S" then ("Semester", value)
  else ("Other", if value = "" then "N/A" else value)

/-- Numeric value of a list of decimal digit characters. -/
def digitsToNat (cs : List Char) : ℕ :=
  cs.foldl (fun n c => 10 * n + (c.toNat - 48)) 0

/-- Model of Python's `float(str)` on plain decimal literals: optional
surrounding whitespace, optional sign, digits with an optional fractional
part (at least one digit overall).  Anything else fails, exactly as
`float` raises `ValueError`. -/
def parseFloat (s : String) : Option ℚ :=
  let signBody : ℚ × List Char :=
    match (pyStrip s).data with
    | '-' :: r => (-1, r)
    | '+' :: r => (1, r)
    | r => (1, r)
  let ip := signBody.2.takeWhile (· ≠ '.')
  match signBody.2.dropWhile (· ≠ '.') with
  | [] =>
      if ip ≠ [] ∧ ip.all Char.isDigit then
        some (signBody.1 * (digitsToNat ip : ℚ))
      else none
  | _ :: fp =>
      if (ip ≠ [] ∨ fp ≠ []) ∧ ip.all Char.isDigit ∧ fp.all Char.isDigit then
        some (signBody.1 *
          ((digitsToNat ip : ℚ) + (digitsToNat fp : ℚ) / 10 ^ fp.length))
      else none

/-- Python's `str(...)` applied to a grade value. -/
def pyStr : GradeVal → String
  | .str s => s
  | .num q => toString q

/-- Python's `float(...)` applied to a grade value: a number converts to
itself, a string goes through `parseFloat`. -/
def pyFloat : GradeVal → Option ℚ
  | .num q => some q
  | .str s => parseFloat s

/-- `score_to_points` from `src/app.py` (lines 66-79).  The letter branch
looks the uppercased value up in `LETTER_TO_POINTS` with default `0.0`;
the numeric branch converts with `float` (raising, modelled as
`InvalidGradeError`, when unparsable) and applies the threshold cascade. -/
def score_to_points (score_type : ScoreType) (score_value : GradeVal) :
    Except GpaError ℚ :=
  match score_type with
  | .Letter => .ok ((LETTER_TO_POINTS.lookup (pyUpper (pyStr score_value))).getD 0)
  | .Numeric =>
      match pyFloat score_value with
      | none => .error .InvalidGradeError
      | some numeric =>
          .ok (if 90 ≤ numeric then 4
               else if 80 ≤ numeric then 3
               else if 70 ≤ numeric then 2
               else if 60 ≤ numeric then 1
               else 0)

/-- A raw grade record as stored in `st.session_state.records`. -/
structure GradeRecord where
  subject : String
  credits : ℚ
  score_type : ScoreType
  grade : GradeVal
  period : String
deriving DecidableEq

/-- A row of the dataframe produced by `normalize_df` (lines 88-97). -/
structure NormalizedRecord extends GradeRecord where
  gpa_points : ℚ
  weighted_points : ℚ
  period_type : String
  period_name : String
deriving DecidableEq

/-- One row of `normalize_df`: compute `gpa_points`, `weighted_points` and
the parsed period columns.  Fails iff `score_to_points` fails. -/
def normalize_record (r : GradeRecord) : Except GpaError NormalizedRecord :=
  match score_to_points r.score_type r.grade with
  | .error e => .error e
  | .ok pts =>
      let pp := parse_period r.period
      .ok { toGradeRecord := r, gpa_points := pts,
            weighted_points := pts * r.credits,
            period_type := pp.1, period_name := pp.2 }

/-- `normalize_df` from `src/app.py` (lines 88-97), row by row; the
pandas `apply` raises out of the whole call at the first failing row. -/
def normalize_df : List GradeRecord → Except GpaError (List NormalizedRecord)
  | [] => .ok []
  | r :: rs =>
      match normalize_record r with
      | .error e => .error e
      | .ok n =>
          match normalize_df rs with
          | .error e => .error e
          | .ok ns => .ok (n :: ns)

/-- pandas `Series.sum`: a left fold of addition starting from zero. -/
def pdSum (l : List ℚ) : ℚ := l.foldl (· + ·) 0

/-- `calculate_overall_gpa` from `src/app.py` (lines 100-104). -/
def calculate_overall_gpa (data : List NormalizedRecord) : ℚ :=
  let total_credits := pdSum (data.map (·.credits))
  if total_credits ≤ 0 then 0
  else pdSum (data.map (·.weighted_points)) / total_credits

/-- Grouping key of the `groupby(["period_type", "period_name"])` call. -/
abbrev PeriodKey := String × String

/-- Grouping key of a normalized record. -/
def recKey (r : NormalizedRecord) : PeriodKey := (r.period_type, r.period_name)

/-- One step of the groupby aggregation: add a record's `weighted_points`
and `credits` into its group, creating the group if absent. -/
def updateGroups : List (PeriodKey × ℚ × ℚ) → NormalizedRecord →
    List (PeriodKey × ℚ × ℚ)
  | [], r => [(recKey r, r.weighted_points, r.credits)]
  | g :: rest, r =>
      if g.1 = recKey r then
        (g.1, g.2.1 + r.weighted_points, g.2.2 + r.credits) :: rest
      else g :: updateGroups rest r

/-- The `groupby ... agg` of `src/app.py` (lines 295-298): per-key totals of
`weighted_points` and `credits`. -/
def group_totals (data : List NormalizedRecord) : List (PeriodKey × ℚ × ℚ) :=
  data.foldl updateGroups []

/-- A row of the `period_gpa` dataframe (lines 295-302). -/
structure PeriodSummary where
  period_type : String
  period_name : String
  total_weighted : ℚ
  total_credits : ℚ
  gpa : ℚ
deriving DecidableEq

/-- `period_gpa` from `src/app.py` (lines 295-302): grouped totals plus the
guarded per-group GPA column. -/
def period_gpa (data : List NormalizedRecord) : List PeriodSummary :=
  (group_totals data).map fun g =>
    { period_type := g.1.1, period_name := g.1.2,
      total_weighted := g.2.1, total_credits := g.2.2,
      gpa := if (0 : ℚ) < g.2.2 then g.2.1 / g.2.2 else 0 }

/-- `order_map` with the `.fillna(99)` of `src/app.py` (lines 331-333):
the six canonical periods map to 1..6, everything else to 99. -/
def order_map (name : String) : ℕ :=
  if name = "Q1" then 1 else if name = "Q2" then 2 else if name = "Q3" then 3
  else if name = "Q4" then 4 else if name = "S1" then 5 else if name = "S2" then 6
  else 99

/-- The sort key relation used by `sort_values("order_key")`. -/
def period_le (a b : String) : Prop := order_map a ≤ order_map b

instance : DecidableRel period_le := fun a b => Nat.decLe (order_map a) (order_map b)

instance : IsTotal String period_le := ⟨fun a b => Nat.le_total (order_map a) (order_map b)⟩

instance : IsTrans String period_le := ⟨fun _ _ _ => Nat.le_trans⟩

/-- The `trend_df.sort_values("order_key")` step (line 334), as a sort of the
period names by their `order_map` key. -/
def sort_periods (names : List String) : List String :=
  List.insertionSort period_le names

/-- Model of `random.choice(l)`: pick the element at a drawn index reduced
modulo the list length. -/
def pyChoice {α : Type} (l : List α) (d : α) (v : ℕ) : α :=
  l.getD (v % l.length) d

/-- Model of `random.randint(a, b)` (both ends inclusive). -/
def randint (a b v : ℕ) : ℕ := a + v % (b - a + 1)

/-- Model of `random.sample(l, k)`: draw an index, take that element out,
recurse.  For `k ≤ l.length` this returns `k` elements at pairwise distinct
positions, exactly the contract of `random.sample`. -/
def pySample {α : Type} (o : ℕ → ℕ) : ℕ → List α → List α
  | 0, _ => []
  | _ + 1, [] => []
  | k + 1, a :: t =>
      let i := o k % (a :: t).length
      (a :: t).get ⟨i, Nat.mod_lt _ (Nat.succ_pos t.length)⟩ ::
        pySample o k ((a :: t).eraseIdx i)

/-- The drawing streams consumed by `generate_random_records`: one stream per
`random.*` call site, indexed by the record position. -/
structure RandomOracle where
  sampleO : ℕ → ℕ
  typeO : ℕ → ℕ
  letterO : ℕ → ℕ
  numO : ℕ → ℕ
  credO : ℕ → ℕ
  periodO : ℕ → ℕ

/-- The loop body of `generate_random_records` (lines 110-124): choose a
score type, a grade consistent with it, credits from `[2, 3, 4]` and a
period from `PERIODS`. -/
def gen_record (o : RandomOracle) (i : ℕ) (subject : String) : GradeRecord :=
  let score_type := pyChoice SCORE_TYPES .Letter (o.typeO i)
  let grade : GradeVal :=
    match score_type with
    | .Letter => .str (pyChoice ["A", "B", "C", "D", "F"] "A" (o.letterO i))
    | .Numeric => .num ((randint 55 100 (o.numO i) : ℕ) : ℚ)
  { subject := subject,
    credits := pyChoice [(2 : ℚ), 3, 4] 2 (o.credO i),
    score_type := score_type,
    grade := grade,
    period := pyChoice PERIODS "Q1" (o.periodO i) }

/-- The `for subject in random.sample(...)` loop, with the record position
made explicit. -/
def gen_records_from (o : RandomOracle) : ℕ → List String → List GradeRecord
  | _, [] => []
  | i, s :: rest => gen_record o i s :: gen_records_from o (i + 1) rest

/-- `generate_random_records` from `src/app.py` (lines 107-125):
`random.sample(RANDOM_SUBJECTS, k=min(size, len(RANDOM_SUBJECTS)))` then one
generated record per sampled subject. -/
def generate_random_records (size : ℕ) (o : RandomOracle) : List GradeRecord :=
  gen_records_from o 0
    (pySample o.sampleO (min size RANDOM_SUBJECTS.length) RANDOM_SUBJECTS)

/-- The submission of the sidebar form (lines 220-232). -/
structure FormInput where
  subject : String
  credits : ℚ
  score_type : ScoreType
  grade : GradeVal
  period : String

/-- The submit handler of `add_record_form` (lines 233-246): a blank subject
after stripping triggers the `st.warning` path (modelled `ValidationError`)
and leaves the store alone; otherwise the stripped record is appended. -/
def add_record_form (records : List GradeRecord) (f : FormInput) :
    List GradeRecord × Except GpaError Unit :=
  if pyStrip f.subject = "" then (records, .error .ValidationError)
  else (records ++ [{ subject := pyStrip f.subject, credits := f.credits,
                      score_type := f.score_type, grade := f.grade,
                      period := f.period }],
        .ok ())

/-- Modelled from the spec: the range checks on form input.  The bounds are
declared in `src/app.py` (`st.number_input` with `min_value=0.5,
max_value=20.0` for credits, `min_value=0, max_value=100` for numeric
grades, lines 222 and 228) but enforced inside the Streamlit widget library,
which is outside the repository; the spec (§7) describes the rejection as a
`ValidationError` that aborts the action. -/
def validate_form (f : FormInput) : Except GpaError Unit :=
  if f.credits < 1 / 2 ∨ 20 < f.credits then .error .ValidationError
  else
    match f.score_type, f.grade with
    | .Numeric, .num q =>
        if q < 0 ∨ 100 < q then .error .ValidationError else .ok ()
    | _, _ => .ok ()

/-- Form submission with the widget-level validation in front of the
handler: an invalid input never reaches `add_record_form`. -/
def submit_record (records : List GradeRecord) (f : FormInput) :
    List GradeRecord × Except GpaError Unit :=
  match validate_form f with
  | .error e => (records, .error e)
  | .ok _ => add_record_form records f

/-- Modelled from the spec: the render step that recomputes the normalized
table from the store (§7: an `InvalidGradeError` is non-fatal, the action is
aborted and the store left unchanged).  `normalize_df` works on a copy
(`df.copy()`), so the store component is returned untouched whether or not
normalization fails. -/
def render_action (records : List GradeRecord) :
    List GradeRecord × Except GpaError (List NormalizedRecord) :=
  (records, normalize_df records)

/-! ### Reference definitions taken from the spec's wording -/

/-- Spec §4.1, letter branch: uppercase, then the fixed table
`{A:4, B:3, C:2, D:1, F:0}` with every other value mapping to `0.0`. -/
def spec_letter_points (raw : String) : ℚ :=
  let u := pyUpper raw
  if u = "A" then 4 else if u = "B" then 3 else if u = "C" then 2
  else if u = "D" then 1 else if u = "F" then 0 else 0

/-- Spec §4.1, numeric branch: the bands `[90,∞)→4`, `[80,90)→3`,
`[70,80)→2`, `[60,70)→1`, else `0`, inclusive on the lower bound. -/
def spec_numeric_bands (x : ℚ) : ℚ :=
  if 90 ≤ x then 4
  else if 80 ≤ x ∧ x < 90 then 3
  else if 70 ≤ x ∧ x < 80 then 2
  else if 60 ≤ x ∧ x < 70 then 1
  else 0

/-- Spec §4.2: trim and uppercase; empty input first, then the leading-letter
classification. -/
def spec_parse_period (raw : String) : String × String :=
  let value := pyUpper (pyStrip raw)
  if value = "" then ("Other", "N/A")
  else if pyStartsWith value "Q" then ("Quarter", value)
  else if pyStartsWith value "S" then ("Semester", value)
  else ("Other", value)

/-- Spec §4.3: the credit-weighted mean with the zero-credit guard, written
with plain list sums. -/
def spec_overall_gpa (data : List NormalizedRecord) : ℚ :=
  if (data.map (·.credits)).sum ≤ 0 then 0
  else (data.map (·.weighted_points)).sum / (data.map (·.credits)).sum

/-- Total `weighted_points` of the records in group `k`. -/
def sum_weighted_for (k : PeriodKey) (data : List NormalizedRecord) : ℚ :=
  ((data.filter fun r => decide (recKey r = k)).map (·.weighted_points)).sum

/-- Total `credits` of the records in group `k`. -/
def sum_credits_for (k : PeriodKey) (data : List NormalizedRecord) : ℚ :=
  ((data.filter fun r => decide (recKey r = k)).map (·.credits)).sum

/-- Grouping key of a summary row. -/
def sKey (s : PeriodSummary) : PeriodKey := (s.period_type, s.period_name)

/-- Find the accumulated totals of group `k` in an aggregation state. -/
def lookupGroup (k : PeriodKey) : List (PeriodKey × ℚ × ℚ) → Option (ℚ × ℚ)
  | [] => none
  | g :: rest => if g.1 = k then some g.2 else lookupGroup k rest

/-- Well-formedness of a generated grade for its score type (spec §4.4). -/
def valid_grade : ScoreType → GradeVal → Prop
  | .Letter, .str s => s ∈ ["A", "B", "C", "D", "F"]
  | .Letter, .num _ => False
  | .Numeric, .num q => 0 ≤ q ∧ q ≤ 100
  | .Numeric, .str _ => False

/-- The all-zero drawing streams, used to instantiate theorems on a concrete
outcome of the random source. -/
def zeroOracle : RandomOracle :=
  ⟨fun _ => 0, fun _ => 0, fun _ => 0, fun _ => 0, fun _ => 0, fun _ => 0⟩

/-- The worked example of spec §8: credits 4 with 4.0 points and credits 2
with 2.0 points. -/
def exampleRecords : List NormalizedRecord :=
  [{ subject := "Математика", credits := 4, score_type := .Letter,
     grade := .str "A", period := "Q1", gpa_points := 4, weighted_points := 16,
     period_type := "Quarter", period_name := "Q1" },
   { subject := "Физика", credits := 2, score_type := .Numeric,
     grade := .num 70, period := "Q1", gpa_points := 2, weighted_points := 4,
     period_type := "Quarter", period_name := "Q1" }]

/-! ### Helper lemmas -/

theorem foldl_add_eq (init : ℚ) (l : List ℚ) : l.foldl (· + ·) init = init + l.sum := by
  induction l generalizing init with
  | nil => simp
  | cons a t ih => simp only [List.foldl_cons, ih, List.sum_cons]; ring

theorem pdSum_eq_sum (l : List ℚ) : pdSum l = l.sum := by
  simp [pdSum, foldl_add_eq]

theorem lookup_letter_table (u : String) :
    (LETTER_TO_POINTS.lookup u).getD 0 =
      (if u = "A" then 4 else if u = "B" then 3 else if u = "C" then 2
       else if u = "D" then 1 else if u = "F" then 0 else (0 : ℚ)) := by
  by_cases hA : u = "A"
  · subst hA; decide
  by_cases hB : u = "B"
  · subst hB; decide
  by_cases hC : u = "C"
  · subst hC; decide
  by_cases hD : u = "D"
  · subst hD; decide
  by_cases hF : u = "F"
  · subst hF; decide
  have bA : (u == "A") = false := beq_eq_false_iff_ne.mpr hA
  have bB : (u == "B") = false := beq_eq_false_iff_ne.mpr hB
  have bC : (u == "C") = false := beq_eq_false_iff_ne.mpr hC
  have bD : (u == "D") = false := beq_eq_false_iff_ne.mpr hD
  have bF : (u == "F") = false := beq_eq_false_iff_ne.mpr hF
  simp [LETTER_TO_POINTS, List.lookup, bA, bB, bC, bD, bF, hA, hB, hC, hD, hF]

/-! ### Claims -/

/-- C3: `parse_period` is a total function that trims and uppercases its
input and returns `(Other, "N/A")` on empty trimmed input, `(Quarter, value)`
on a leading `Q`, `(Semester, value)` on a leading `S` and `(Other, value)`
otherwise, matching the spec's reference definition and its four worked
examples. -/
theorem parse_period_spec :
    (∀ s, parse_period s = spec_parse_period s) ∧
    parse_period "q1" = ("Quarter", "Q1") ∧
    parse_period "" = ("Other", "N/A") ∧
    parse_period "S2" = ("Semester", "S2") ∧
    parse_period "midterm" = ("Other", "MIDTERM") := by
  refine ⟨fun s => ?_, by decide, by decide, by decide, by decide⟩
  simp only [parse_period, spec_parse_period]
  by_cases he : pyUpper (pyStrip s) = ""
  · simp only [he]
    decide
  · simp [he]

/-- C2: `calculate_overall_gpa` equals the spec's credit-weighted mean with
the zero-credit guard; the empty store yields `0.0` and the worked example
`[(credits 4, points 4.0), (credits 2, points 2.0)]` yields `20/6 = 10/3`. -/
theorem calculate_overall_gpa_spec :
    (∀ data, calculate_overall_gpa data = spec_overall_gpa data) ∧
    calculate_overall_gpa [] = 0 ∧
    calculate_overall_gpa exampleRecords = 10 / 3 := by
  refine ⟨fun data => ?_, by norm_num [calculate_overall_gpa, pdSum], ?_⟩
  · simp [calculate_overall_gpa, spec_overall_gpa, pdSum_eq_sum]
  · norm_num [calculate_overall_gpa, pdSum, exampleRecords]

/-- C1: `score_to_points` matches the reference definition — the letter
branch uppercases and maps through the fixed table with default `0.0`, and
the numeric branch applies the lower-bound-inclusive threshold bands to the
parsed value; boundary values `90, 80, 70, 60` map to `4, 3, 2, 1` and
`89.99` maps to `3`. -/
theorem score_to_points_spec :
    (∀ v, score_to_points .Letter v = .ok (spec_letter_points (pyStr v))) ∧
    (∀ v x, pyFloat v = some x →
      score_to_points .Numeric v = .ok (spec_numeric_bands x)) ∧
    score_to_points .Numeric (.num 90) = .ok 4 ∧
    score_to_points .Numeric (.num 80) = .ok 3 ∧
    score_to_points .Numeric (.num 70) = .ok 2 ∧
    score_to_points .Numeric (.num 60) = .ok 1 ∧
    score_to_points .Numeric (.num (8999 / 100)) = .ok 3 := by
  refine ⟨fun v => ?_, fun v x h => ?_, ?_, ?_, ?_, ?_, ?_⟩
  · simp [score_to_points, spec_letter_points, lookup_letter_table]
  · simp only [score_to_points, h, spec_numeric_bands]
    by_cases h90 : (90 : ℚ) ≤ x
    · simp [h90]
    · have l90 : x < 90 := not_le.mp h90
      by_cases h80 : (80 : ℚ) ≤ x
      · simp [h90, h80, l90]
      · have l80 : x < 80 := not_le.mp h80
        by_cases h70 : (70 : ℚ) ≤ x
        · simp [h90, h80, h70, l80]
        · have l70 : x < 70 := not_le.mp h70
          by_cases h60 : (60 : ℚ) ≤ x
          · simp [h90, h80, h70, h60, l70]
          · simp [h90, h80, h70, h60]
  · norm_num [score_to_points, pyFloat]
  · norm_num [score_to_points, pyFloat]
  · norm_num [score_to_points, pyFloat]
  · norm_num [score_to_points, pyFloat]
  · norm_num [score_to_points, pyFloat]

/-- Witness for C1: the numeric grade `86` parses to `86` and lands in the
`[80, 90)` band. -/
theorem score_to_points_spec_witness :
    score_to_points .Numeric (.num 86) = .ok (spec_numeric_bands 86) :=
  score_to_points_spec.2.1 (.num 86) 86 rfl

theorem normalize_record_error_eq {r : GradeRecord} {e : GpaError}
    (h : normalize_record r = .error e) : e = .InvalidGradeError := by
  obtain ⟨subj, cred, st, g, per⟩ := r
  cases st with
  | Letter => simp [normalize_record, score_to_points] at h
  | Numeric =>
      cases hpf : pyFloat g with
      | none =>
          simp [normalize_record, score_to_points, hpf] at h
          exact h.symm
      | some x => simp [normalize_record, score_to_points, hpf] at h

/-- C7: a submitted record whose subject is blank after trimming is rejected
(`ValidationError`, i.e. the `st.warning` path), leaving the store and its
record count unchanged; a record with a non-blank subject is appended,
trimmed, at the end of the store. -/
theorem add_record_form_spec :
    (∀ records f, pyStrip f.subject = "" →
      add_record_form records f = (records, .error .ValidationError) ∧
      (add_record_form records f).1.length = records.length) ∧
    (∀ records f, pyStrip f.subject ≠ "" →
      add_record_form records f =
        (records ++ [{ subject := pyStrip f.subject, credits := f.credits,
                       score_type := f.score_type, grade := f.grade,
                       period := f.period }], .ok ())) := by
  constructor
  · intro records f h
    simp [add_record_form, h]
  · intro records f h
    simp [add_record_form, h]

/-- Witness for C7: a whitespace-only subject is rejected with the store
untouched, and the subject `"Химия"` is appended. -/
theorem add_record_form_spec_witness :
    add_record_form [] ⟨"  ", 3, .Letter, .str "A", "Q1"⟩ =
      ([], .error .ValidationError) ∧
    add_record_form [] ⟨"Химия", 3, .Letter, .str "A", "Q1"⟩ =
      ([{ subject := pyStrip "Химия", credits := 3, score_type := .Letter,
          grade := .str "A", period := "Q1" }], .ok ()) :=
  ⟨(add_record_form_spec.1 [] ⟨"  ", 3, .Letter, .str "A", "Q1"⟩ (by decide)).1,
   add_record_form_spec.2 [] ⟨"Химия", 3, .Letter, .str "A", "Q1"⟩ (by decide)⟩

/-- C8: a form input with credits outside the declared widget range
`[0.5, 20]`, or a numeric grade outside `[0, 100]`, fails with
`ValidationError` and leaves the record store unchanged, so no such record
enters the store or the normalized table. -/
theorem submit_record_spec (records : List GradeRecord) (f : FormInput)
    (h : f.credits < 1 / 2 ∨ 20 < f.credits ∨
      (∃ q, f.score_type = .Numeric ∧ f.grade = .num q ∧ (q < 0 ∨ 100 < q))) :
    submit_record records f = (records, .error .ValidationError) := by
  have hv : validate_form f = .error .ValidationError := by
    unfold validate_form
    by_cases hc : f.credits < 1 / 2 ∨ 20 < f.credits
    · rw [if_pos hc]
    · rw [if_neg hc]
      rcases h with h | h | ⟨q, hst, hg, hq⟩
      · exact absurd (Or.inl h) hc
      · exact absurd (Or.inr h) hc
      · rw [hst, hg]
        simp [hq]
  unfold submit_record
  rw [hv]

/-- Witness for C8: credits `21` exceed the widget maximum `20` and the
submission is rejected without touching the store. -/
theorem submit_record_spec_witness :
    submit_record [] ⟨"Химия", 21, .Letter, .str "A", "Q1"⟩ =
      ([], .error .ValidationError) :=
  submit_record_spec [] ⟨"Химия", 21, .Letter, .str "A", "Q1"⟩
    (Or.inr (Or.inl (by norm_num)))

/-- C6: a numeric raw grade that does not parse as a real number makes
`score_to_points` fail with `InvalidGradeError`; any store containing such a
record makes `normalize_df` abort with that error instead of producing a
table, and the rendering action leaves the record store unchanged. -/
theorem invalid_grade_spec :
    (∀ v, pyFloat v = none →
      score_to_points .Numeric v = .error .InvalidGradeError) ∧
    (∀ rs, (∃ r ∈ rs, r.score_type = .Numeric ∧ pyFloat r.grade = none) →
      normalize_df rs = .error .InvalidGradeError) ∧
    (∀ rs, (render_action rs).1 = rs) := by
  have hpt : ∀ v, pyFloat v = none →
      score_to_points .Numeric v = .error .InvalidGradeError := by
    intro v hv
    simp [score_to_points, hv]
  refine ⟨hpt, fun rs h => ?_, fun rs => rfl⟩
  induction rs with
  | nil => obtain ⟨r, hr, -⟩ := h; cases hr
  | cons a t ih =>
      obtain ⟨r, hr, hst, hpf⟩ := h
      rcases List.mem_cons.mp hr with rfl | hrt
      · have : normalize_record r = .error .InvalidGradeError := by
          unfold normalize_record
          rw [hst, hpt r.grade hpf]
        simp [normalize_df, this]
      · cases hna : normalize_record a with
        | error e =>
            have := normalize_record_error_eq hna
            subst this
            simp [normalize_df, hna]
        | ok n =>
            have ht := ih ⟨r, hrt, hst, hpf⟩
            simp [normalize_df, hna, ht]

/-- Witness for C6: the unparsable numeric grade `"abc"` triggers
`InvalidGradeError` from `score_to_points`. -/
theorem invalid_grade_spec_witness :
    score_to_points .Numeric (.str "abc") = .error .InvalidGradeError :=
  invalid_grade_spec.1 (.str "abc") (by decide)

theorem lookupGroup_updateGroups_self (r : NormalizedRecord) :
    ∀ acc, lookupGroup (recKey r) (updateGroups acc r) =
      some (((lookupGroup (recKey r) acc).getD (0, 0)).1 + r.weighted_points,
            ((lookupGroup (recKey r) acc).getD (0, 0)).2 + r.credits)
  | [] => by simp [updateGroups, lookupGroup]
  | g :: rest => by
      by_cases h : g.1 = recKey r
      · simp [updateGroups, lookupGroup, h]
      · simp [updateGroups, lookupGroup, h, lookupGroup_updateGroups_self r rest]

theorem lookupGroup_updateGroups_ne {k : PeriodKey} {r : NormalizedRecord}
    (hk : k ≠ recKey r) :
    ∀ acc, lookupGroup k (updateGroups acc r) = lookupGroup k acc
  | [] => by simp [updateGroups, lookupGroup, Ne.symm hk]
  | g :: rest => by
      by_cases h : g.1 = recKey r
      · simp [updateGroups, lookupGroup, h, Ne.symm hk]
      · by_cases h2 : g.1 = k <;>
          simp [updateGroups, lookupGroup, h, h2, hk,
                lookupGroup_updateGroups_ne hk rest]

theorem keys_updateGroups (r : NormalizedRecord) :
    ∀ acc : List (PeriodKey × ℚ × ℚ),
      (updateGroups acc r).map (fun g => g.1) =
        if recKey r ∈ acc.map (fun g => g.1) then acc.map (fun g => g.1)
        else acc.map (fun g => g.1) ++ [recKey r]
  | [] => by simp [updateGroups]
  | g :: rest => by
      by_cases h : g.1 = recKey r
      · simp [updateGroups, h]
      · have hne : ¬ recKey r = g.1 := fun hh => h hh.symm
        by_cases hm : recKey r ∈ rest.map (fun g => g.1)
        · simp [updateGroups, h, hne, hm, keys_updateGroups r rest]
        · simp [updateGroups, h, hne, hm, keys_updateGroups r rest]

theorem keys_foldl_nodup :
    ∀ (data : List NormalizedRecord) (acc : List (PeriodKey × ℚ × ℚ)),
      (acc.map (fun g => g.1)).Nodup →
      ((data.foldl updateGroups acc).map (fun g => g.1)).Nodup
  | [], _, h => h
  | r :: data, acc, h => by
      rw [List.foldl_cons]
      refine keys_foldl_nodup data (updateGroups acc r) ?_
      rw [keys_updateGroups]
      by_cases hm : recKey r ∈ acc.map (fun g => g.1)
      · simpa [hm] using h
      · simp [hm, List.nodup_append, h]

theorem lookupGroup_foldl :
    ∀ (data : List NormalizedRecord) (acc : List (PeriodKey × ℚ × ℚ))
      (k : PeriodKey),
      (lookupGroup k (data.foldl updateGroups acc)).getD (0, 0) =
        (((lookupGroup k acc).getD (0, 0)).1 + sum_weighted_for k data,
         ((lookupGroup k acc).getD (0, 0)).2 + sum_credits_for k data)
  | [], acc, k => by simp [sum_weighted_for, sum_credits_for]
  | r :: data, acc, k => by
      rw [List.foldl_cons, lookupGroup_foldl data (updateGroups acc r) k]
      by_cases hk : recKey r = k
      · subst hk
        rw [lookupGroup_updateGroups_self r acc]
        simp only [Option.getD_some, sum_weighted_for, sum_credits_for,
          List.filter_cons, decide_eq_true_eq, if_pos rfl, if_true,
          decide_True, List.map_cons, List.sum_cons, Prod.mk.injEq]
        constructor <;> ring
      · rw [lookupGroup_updateGroups_ne (Ne.symm hk) acc]
        simp [sum_weighted_for, sum_credits_for, List.filter_cons, hk]

theorem lookupGroup_foldl_none :
    ∀ (data : List NormalizedRecord) (acc : List (PeriodKey × ℚ × ℚ))
      (k : PeriodKey),
      lookupGroup k (data.foldl updateGroups acc) = none ↔
        lookupGroup k acc = none ∧ ∀ r ∈ data, recKey r ≠ k
  | [], acc, k => by simp
  | r :: data, acc, k => by
      rw [List.foldl_cons, lookupGroup_foldl_none data (updateGroups acc r) k]
      by_cases hk : recKey r = k
      · subst hk
        rw [lookupGroup_updateGroups_self r acc]
        simp [List.forall_mem_cons]
      · rw [lookupGroup_updateGroups_ne (Ne.symm hk) acc]
        simp [List.forall_mem_cons, hk]

theorem lookupGroup_eq_of_mem :
    ∀ {l : List (PeriodKey × ℚ × ℚ)}, (l.map (fun g => g.1)).Nodup →
      ∀ {g}, g ∈ l → lookupGroup g.1 l = some g.2
  | [], _, _, hg => absurd hg (List.not_mem_nil _)
  | a :: l, hnd, g, hg => by
      have hnd2 : a.1 ∉ l.map (fun g => g.1) ∧ (l.map (fun g => g.1)).Nodup := by
        rw [List.map_cons, List.nodup_cons] at hnd
        exact hnd
      rcases List.mem_cons.mp hg with rfl | hgl
      · simp [lookupGroup]
      · have hne : ¬ a.1 = g.1 := by
          intro hh
          exact hnd2.1 (hh ▸ List.mem_map_of_mem _ hgl)
        simp only [lookupGroup, if_neg hne]
        exact lookupGroup_eq_of_mem hnd2.2 hgl

theorem lookupGroup_ne_none_iff :
    ∀ (l : List (PeriodKey × ℚ × ℚ)) (k : PeriodKey),
      ¬ lookupGroup k l = none ↔ k ∈ l.map (fun g => g.1)
  | [], k => by simp [lookupGroup]
  | g :: l, k => by
      by_cases h : g.1 = k
      · simp [lookupGroup, h]
      · simp [lookupGroup, h, lookupGroup_ne_none_iff l k, Ne.symm h]

/-- C4: `period_gpa` groups the normalized records by
`(period_type, period_name)` — one summary row per key occurring in the
data, no duplicates — and each row carries the group's summed
`weighted_points`, summed `credits`, and the guarded GPA
`total_weighted / total_credits` (or `0.0` on a non-positive credit
total). -/
theorem period_gpa_spec (data : List NormalizedRecord) :
    ((period_gpa data).map sKey).Nodup ∧
    (∀ k : PeriodKey, (∃ r ∈ data, recKey r = k) ↔
      ∃ s ∈ period_gpa data, sKey s = k) ∧
    (∀ s ∈ period_gpa data,
      s.total_weighted = sum_weighted_for (sKey s) data ∧
      s.total_credits = sum_credits_for (sKey s) data ∧
      s.gpa = if 0 < s.total_credits then s.total_weighted / s.total_credits
              else 0) := by
  have hkeys : (period_gpa data).map sKey =
      (group_totals data).map (fun g => g.1) := by
    simp [period_gpa, sKey, List.map_map, Function.comp]
  refine ⟨?_, fun k => ?_, fun s hs => ?_⟩
  · rw [hkeys]
    exact keys_foldl_nodup data [] (by simp)
  · constructor
    · rintro ⟨r, hr, hk⟩
      have hne : ¬ lookupGroup k (group_totals data) = none := by
        intro hnone
        rw [group_totals, lookupGroup_foldl_none data [] k] at hnone
        exact hnone.2 r hr hk
      have hmem : k ∈ (period_gpa data).map sKey := by
        rw [hkeys]
        exact (lookupGroup_ne_none_iff _ k).mp hne
      exact List.mem_map.mp hmem
    · rintro ⟨s, hs, hsk⟩
      have hmem : k ∈ (group_totals data).map (fun g => g.1) := by
        rw [← hkeys]
        exact List.mem_map.mpr ⟨s, hs, hsk⟩
      have hne := (lookupGroup_ne_none_iff _ k).mpr hmem
      by_contra hno
      push_neg at hno
      refine hne ?_
      rw [group_totals, lookupGroup_foldl_none data [] k]
      exact ⟨rfl, hno⟩
  · simp only [period_gpa, List.mem_map] at hs
    obtain ⟨g, hg, rfl⟩ := hs
    have hnd : ((group_totals data).map (fun g => g.1)).Nodup :=
      keys_foldl_nodup data [] (by simp)
    have hlk := lookupGroup_eq_of_mem hnd hg
    have hsum := lookupGroup_foldl data [] g.1
    rw [group_totals] at hlk
    rw [hlk] at hsum
    simp only [lookupGroup, Option.getD_some, Option.getD_none] at hsum
    simp only [zero_add] at hsum
    refine ⟨?_, ?_, ?_⟩ <;> simp [sKey, hsum]

/-- Witness for C4: the worked example's two records share the key
`(Quarter, Q1)`, so a summary row with that key exists. -/
theorem period_gpa_spec_witness :
    ∃ s ∈ period_gpa exampleRecords, sKey s = ("Quarter", "Q1") :=
  ((period_gpa_spec exampleRecords).2.1 ("Quarter", "Q1")).mp
    ⟨{ subject := "Математика", credits := 4, score_type := .Letter,
       grade := .str "A", period := "Q1", gpa_points := 4,
       weighted_points := 16, period_type := "Quarter", period_name := "Q1" },
     List.mem_cons_self _ _, rfl⟩

/-- C5: the display ordering of period summaries is
`Q1 < Q2 < Q3 < Q4 < S1 < S2`, every name outside the fixed six-element set
sorts after all recognized ones, and the worked example
`[S2, Q1, Q3, S1]` sorts to `[Q1, Q3, S1, S2]`. -/
theorem period_order_spec :
    sort_periods ["S2", "Q1", "Q3", "S1"] = ["Q1", "Q3", "S1", "S2"] ∧
    (∀ l : List String, (sort_periods l).Sorted period_le) ∧
    (order_map "Q1" < order_map "Q2" ∧ order_map "Q2" < order_map "Q3" ∧
     order_map "Q3" < order_map "Q4" ∧ order_map "Q4" < order_map "S1" ∧
     order_map "S1" < order_map "S2") ∧
    (∀ x, x ∉ PERIODS → ∀ y ∈ PERIODS, order_map y < order_map x) := by
  refine ⟨by decide, fun l => List.sorted_insertionSort period_le l, by decide, ?_⟩
  intro x hx y hy
  have hx99 : order_map x = 99 := by
    simp only [PERIODS, List.mem_cons, List.not_mem_nil, or_false, not_or] at hx
    simp [order_map, hx.1, hx.2.1, hx.2.2.1, hx.2.2.2.1, hx.2.2.2.2.1,
      hx.2.2.2.2.2]
  rw [hx99]
  fin_cases hy <;> decide

/-- Witness for C5: the unrecognized period `"MIDTERM"` sorts after the
recognized `"Q1"`. -/
theorem period_order_spec_witness :
    order_map "Q1" < order_map "MIDTERM" :=
  period_order_spec.2.2.2 "MIDTERM" (by decide) "Q1" (by decide)

theorem pyChoice_mem {α : Type} (l : List α) (d : α) (v : ℕ) (h : l ≠ []) :
    pyChoice l d v ∈ l := by
  have hlt : v % l.length < l.length := Nat.mod_lt _ (List.length_pos.mpr h)
  rw [pyChoice, List.getD_eq_getElem l d hlt]
  exact List.getElem_mem hlt

theorem pySample_length {α : Type} (o : ℕ → ℕ) :
    ∀ (k : ℕ) (l : List α), (pySample o k l).length = min k l.length
  | 0, l => by simp [pySample]
  | k + 1, [] => by simp [pySample]
  | k + 1, a :: t => by
      have hi : o k % (a :: t).length < (a :: t).length := Nat.mod_lt _ (by simp)
      rw [pySample, List.length_cons, pySample_length o k,
        List.length_eraseIdx_of_lt hi]
      simp only [List.length_cons]
      omega

theorem pySample_subset {α : Type} (o : ℕ → ℕ) :
    ∀ (k : ℕ) (l : List α) (x : α), x ∈ pySample o k l → x ∈ l
  | 0, l, x, h => by simp [pySample] at h
  | k + 1, [], x, h => by simp [pySample] at h
  | k + 1, a :: t, x, h => by
      rw [pySample] at h
      rcases List.mem_cons.mp h with rfl | h2
      · exact List.get_mem _ _ _
      · exact List.mem_of_mem_eraseIdx (pySample_subset o k _ x h2)

theorem get_not_mem_eraseIdx {α : Type} {l : List α} (hnd : l.Nodup) {i : ℕ}
    (hi : i < l.length) : l.get ⟨i, hi⟩ ∉ l.eraseIdx i := by
  intro hmem
  simp only [List.get_eq_getElem] at hmem
  obtain ⟨j, hj, hje⟩ := List.mem_iff_getElem.mp hmem
  rw [List.getElem_eraseIdx] at hje
  split at hje
  · have := hnd.getElem_inj_iff.mp hje
    omega
  · have := hnd.getElem_inj_iff.mp hje
    omega

theorem pySample_nodup {α : Type} (o : ℕ → ℕ) :
    ∀ (k : ℕ) (l : List α), l.Nodup → (pySample o k l).Nodup
  | 0, l, _ => by simp [pySample]
  | k + 1, [], _ => by simp [pySample]
  | k + 1, a :: t, hnd => by
      rw [pySample, List.nodup_cons]
      exact ⟨fun hmem => get_not_mem_eraseIdx hnd
          (Nat.mod_lt _ (Nat.succ_pos t.length))
          (pySample_subset o k _ _ hmem),
        pySample_nodup o k _ (hnd.eraseIdx _)⟩

theorem gen_records_from_subjects (o : RandomOracle) :
    ∀ (i : ℕ) (ss : List String),
      (gen_records_from o i ss).map (fun r => r.subject) = ss
  | _, [] => rfl
  | i, s :: rest => by
      simp [gen_records_from, gen_record,
        gen_records_from_subjects o (i + 1) rest]

theorem gen_records_from_mem (o : RandomOracle) :
    ∀ (i : ℕ) (ss : List String) (r : GradeRecord),
      r ∈ gen_records_from o i ss → ∃ j s, s ∈ ss ∧ r = gen_record o j s
  | _, [], r, h => absurd h (List.not_mem_nil r)
  | i, s :: rest, r, h => by
      rcases List.mem_cons.mp h with rfl | h2
      · exact ⟨i, s, List.mem_cons_self s rest, rfl⟩
      · obtain ⟨j, s2, hs2, hr⟩ := gen_records_from_mem o (i + 1) rest r h2
        exact ⟨j, s2, List.mem_cons_of_mem s hs2, hr⟩

theorem gen_record_props (o : RandomOracle) (i : ℕ) (s : String) :
    (gen_record o i s).subject = s ∧
    (gen_record o i s).credits ∈ [(2 : ℚ), 3, 4] ∧
    (gen_record o i s).period ∈ PERIODS ∧
    valid_grade (gen_record o i s).score_type (gen_record o i s).grade := by
  refine ⟨rfl, ?_, ?_, ?_⟩
  · simp only [gen_record]
    exact pyChoice_mem _ _ _ (by simp)
  · simp only [gen_record]
    exact pyChoice_mem _ _ _ (by simp [PERIODS])
  · cases hst : pyChoice SCORE_TYPES ScoreType.Letter (o.typeO i) with
    | Letter =>
        simp only [gen_record, hst, valid_grade]
        exact pyChoice_mem ["A", "B", "C", "D", "F"] "A" (o.letterO i) (by simp)
    | Numeric =>
        simp only [gen_record, hst, valid_grade]
        have h1 : randint 55 100 (o.numO i) ≤ 100 := by unfold randint; omega
        exact ⟨Nat.cast_nonneg _, by exact_mod_cast h1⟩

/-- C9: for every requested size and every outcome of the pseudo-random
source, `generate_random_records` yields exactly `min n 10` records whose
subjects are pairwise distinct members of the fixed catalog, with credits in
`{2, 3, 4}`, a period from the fixed period set, and a grade valid for the
chosen score type. -/
theorem generate_random_records_spec (n : ℕ) (o : RandomOracle) :
    RANDOM_SUBJECTS.length = 10 ∧
    (generate_random_records n o).length = min n RANDOM_SUBJECTS.length ∧
    ((generate_random_records n o).map (fun r => r.subject)).Nodup ∧
    ∀ r ∈ generate_random_records n o,
      r.subject ∈ RANDOM_SUBJECTS ∧
      r.credits ∈ [(2 : ℚ), 3, 4] ∧
      r.period ∈ PERIODS ∧
      valid_grade r.score_type r.grade := by
  have hsub : (generate_random_records n o).map (fun r => r.subject) =
      pySample o.sampleO (min n RANDOM_SUBJECTS.length) RANDOM_SUBJECTS :=
    gen_records_from_subjects o 0 _
  refine ⟨rfl, ?_, ?_, ?_⟩
  · have hlen := congrArg List.length hsub
    rw [List.length_map] at hlen
    rw [hlen, pySample_length, Nat.min_assoc, Nat.min_self]
  · rw [hsub]
    exact pySample_nodup _ _ _ (by decide)
  · intro r hr
    obtain ⟨j, s, hs, rfl⟩ := gen_records_from_mem o 0 _ r hr
    have hprops := gen_record_props o j s
    refine ⟨?_, hprops.2.1, hprops.2.2.1, hprops.2.2.2⟩
    rw [hprops.1]
    exact pySample_subset _ _ _ _ hs

/-- Witness for C9: on the all-zero random stream the first generated record
is in the output and has credits in `{2, 3, 4}`. -/
theorem generate_random_records_spec_witness :
    ∃ r ∈ generate_random_records 6 zeroOracle, r.credits ∈ [(2 : ℚ), 3, 4] := by
  have hmem : gen_record zeroOracle 0 "Математика" ∈
      generate_random_records 6 zeroOracle := List.mem_cons_self _ _
  exact ⟨_, hmem,
    ((generate_random_records_spec 6 zeroOracle).2.2.2 _ hmem).2.1⟩

/-- C10: on any normalized table whose rows have non-negative credits,
`gpa_points` in `[0, 4]` and `weighted_points = gpa_points * credits`, the
overall GPA stays in `[0, 4]`; and `score_to_points` only ever returns one
of `{0, 1, 2, 3, 4}`. -/
theorem gpa_range_spec :
    (∀ data : List NormalizedRecord,
      (∀ r ∈ data, 0 ≤ r.credits ∧ 0 ≤ r.gpa_points ∧ r.gpa_points ≤ 4 ∧
        r.weighted_points = r.gpa_points * r.credits) →
      0 ≤ calculate_overall_gpa data ∧ calculate_overall_gpa data ≤ 4) ∧
    (∀ st v q, score_to_points st v = .ok q → q ∈ [(0 : ℚ), 1, 2, 3, 4]) := by
  constructor
  · intro data h
    simp only [calculate_overall_gpa, pdSum_eq_sum]
    by_cases hc : (data.map fun r => r.credits).sum ≤ 0
    · rw [if_pos hc]
      norm_num
    · rw [if_neg hc]
      have hcpos : 0 < (data.map fun r => r.credits).sum := lt_of_not_le hc
      have hw0 : 0 ≤ (data.map fun r => r.weighted_points).sum := by
        apply List.sum_nonneg
        intro x hx
        obtain ⟨r, hr, rfl⟩ := List.mem_map.mp hx
        obtain ⟨h1, h2, -, h4⟩ := h r hr
        rw [h4]
        exact mul_nonneg h2 h1
      have hstep : ∀ r ∈ data, r.weighted_points ≤ 4 * r.credits := by
        intro r hr
        obtain ⟨h1, -, h3, h4⟩ := h r hr
        rw [h4]
        exact mul_le_mul_of_nonneg_right h3 h1
      have hw4 : (data.map fun r => r.weighted_points).sum ≤
          4 * (data.map fun r => r.credits).sum := by
        calc (data.map fun r => r.weighted_points).sum
            ≤ (data.map fun r => 4 * r.credits).sum := List.sum_le_sum hstep
          _ = 4 * (data.map fun r => r.credits).sum := by
              simpa using List.sum_map_mul_left data (fun r => r.credits) 4
      exact ⟨div_nonneg hw0 hcpos.le,
        (div_le_iff₀ hcpos).mpr (by linarith)⟩
  · intro st v q hq
    cases st with
    | Letter =>
        simp only [score_to_points, Except.ok.injEq] at hq
        rw [lookup_letter_table] at hq
        split_ifs at hq <;> rw [← hq] <;> decide
    | Numeric =>
        cases hpf : pyFloat v with
        | none => simp [score_to_points, hpf] at hq
        | some x =>
            simp only [score_to_points, hpf, Except.ok.injEq] at hq
            split_ifs at hq <;> rw [← hq] <;> decide

/-- Witness for C10: the worked example's table keeps the GPA in range, and
the letter grade `A` yields the in-range value `4`. -/
theorem gpa_range_spec_witness :
    (0 ≤ calculate_overall_gpa exampleRecords ∧
      calculate_overall_gpa exampleRecords ≤ 4) ∧
    (4 : ℚ) ∈ [(0 : ℚ), 1, 2, 3, 4] :=
  ⟨gpa_range_spec.1 exampleRecords (by norm_num [exampleRecords]),
   gpa_range_spec.2 .Letter (.str "A") 4 rfl⟩

end GpaCalc
